import Mathlib

/-!
Verification development for the subtitle-merging program (src/msub.py,
function mergeSub).  The program is shallowly embedded: Python strings are
lists of characters, Python floats are modelled as exact rationals,
fallible steps return Except, and the external ffmpeg process together
with the filesystem are passed in as explicit parameters (an existence
predicate, the diagnostic stderr line stream and the exit code).
-/

set_option maxRecDepth 100000

deriving instance DecidableEq for Except

namespace MSub

/-- Python prefix test on strings (s starts with pat). -/
def strPrefix : List Char → List Char → Bool
  | [], _ => true
  | a :: as, s =>
    match s with
    | [] => false
    | b :: bs => a == b && strPrefix as bs

/-- Python substring test: the expression pat in s on strings. -/
def pyIn (pat : List Char) : List Char → Bool
  | [] => pat.isEmpty
  | c :: rest => strPrefix pat (c :: rest) || pyIn pat rest

/-- Numeric value of a decimal digit character. -/
def digVal (c : Char) : Nat := c.toNat - 48

/-- Scanner for a Python digit group digit (digit or underscore-digit)*,
accumulating the value and the number of digits; pu records whether the
previous character was an underscore (Python forbids a trailing or
doubled underscore).  Returns none when the underscore placement is
illegal, otherwise the value, the digit count and the unconsumed rest. -/
def udLoop : Bool → Nat → Nat → List Char → Option (Nat × Nat × List Char)
  | pu, v, n, [] => if pu then none else some (v, n, [])
  | pu, v, n, c :: rest =>
    if c.isDigit then udLoop false (v * 10 + digVal c) (n + 1) rest
    else if c = '_' then (if pu then none else udLoop true v n rest)
    else if pu then none else some (v, n, c :: rest)

/-- Leading digit group of a string, in the sense of Python float syntax. -/
def parseUDigits (s : List Char) : Option (Nat × Nat × List Char) :=
  match s with
  | c :: _ => if c.isDigit then udLoop false 0 0 s else none
  | [] => none

/-- Optional exponent part of a Python float literal applied to mantissa m;
the whole rest of the string must be consumed. -/
def pyExp (m : ℚ) (r : List Char) : Option ℚ :=
  match r with
  | [] => some m
  | c :: r2 =>
    if c = 'e' ∨ c = 'E' then
      match parseUDigits r2 with
      | some (ev, _, []) => some (m * 10 ^ ev)
      | _ => none
    else none

/-- Optional fraction then optional exponent of a Python float literal;
hasInt records whether an integer part was present (Python requires at
least one digit in the mantissa). -/
def pyFracExp (hasInt : Bool) (iv : ℚ) (r : List Char) : Option ℚ :=
  match r with
  | '.' :: r2 =>
    match parseUDigits r2 with
    | some (fv, fc, r3) => pyExp (iv + (fv : ℚ) / 10 ^ fc) r3
    | none => if hasInt then pyExp iv r2 else none
  | _ => if hasInt then pyExp iv r else none

/-- Python float(s) on the strings this program can produce (regex capture
groups: digit runs, digit runs around a dot, an arbitrary non-digit
character between digit runs, and digit-or-dot runs).  Returns none where
Python raises ValueError.  Python binary floats are modelled as exact
rationals; signs, infinities, nan and surrounding whitespace cannot occur
in the captured strings and are not modelled. -/
def pyFloat (s : List Char) : Option ℚ :=
  match parseUDigits s with
  | some (iv, _, r) => pyFracExp true (iv : ℚ) r
  | none => pyFracExp false 0 s

/-- Regex fragment of one digit group followed by a literal colon, as the
Python pattern digits-plus-colon matches it: the plus is greedy and a
shorter digit run would leave a digit where the colon must be, so the
maximal run followed by a colon is the only possibility. -/
def matchDigitsColon (s : List Char) : Option (List Char × List Char) :=
  let r := s.takeWhile Char.isDigit
  if r.isEmpty then none
  else
    match s.drop r.length with
    | ':' :: rest => some (r, rest)
    | _ => none

/-- Regex fragment for the seconds group of the duration pattern, whose dot
is unescaped in the source and therefore matches any character except a
newline.  Greedy matching with backtracking: the maximal digit run
followed by any non-newline character and at least one digit wins;
otherwise backtracking lands on the run itself when it has at least three
digits (its last two digits serving as the any-character and the final
digit group); otherwise there is no match. -/
def matchSecondsAny (s : List Char) : Option (List Char) :=
  let r1 := s.takeWhile Char.isDigit
  if r1.isEmpty then none
  else
    match s.drop r1.length with
    | c :: r2 =>
      let r3 := r2.takeWhile Char.isDigit
      if c ≠ '\n' ∧ ¬ r3.isEmpty then some (r1 ++ c :: r3)
      else if 3 ≤ r1.length then some r1 else none
    | [] => if 3 ≤ r1.length then some r1 else none

/-- Regex fragment for the seconds group of the progress pattern, with an
escaped (literal) dot between the two digit runs. -/
def matchSecondsDot (s : List Char) : Option (List Char) :=
  let r1 := s.takeWhile Char.isDigit
  if r1.isEmpty then none
  else
    match s.drop r1.length with
    | '.' :: r2 =>
      let r3 := r2.takeWhile Char.isDigit
      if r3.isEmpty then none else some (r1 ++ '.' :: r3)
    | _ => none

/-- Regex fragment for the speed group: a maximal nonempty run of digits
and dots that must be followed by the literal x (a shorter run would
leave a digit or dot where the x must be). -/
def matchSpeedTail (s : List Char) : Option (List Char) :=
  let r := s.takeWhile (fun c => c.isDigit || c = '.')
  if r.isEmpty then none
  else
    match s.drop r.length with
    | 'x' :: _ => some r
    | _ => none

/-- Literal prefix of the duration regex. -/
def durLit : List Char := "Duration: ".data

/-- Literal prefix of the progress-time regex. -/
def timeLit : List Char := "time=".data

/-- Literal prefix of the speed regex. -/
def speedLit : List Char := "speed=".data

/-- Tail of the duration regex after its literal prefix: two digit groups
each followed by a colon, then the seconds group with the unescaped dot. -/
def matchDurTail (s : List Char) : Option (List Char × List Char × List Char) :=
  match matchDigitsColon s with
  | none => none
  | some (g1, s1) =>
    match matchDigitsColon s1 with
    | none => none
    | some (g2, s2) =>
      match matchSecondsAny s2 with
      | none => none
      | some g3 => some (g1, g2, g3)

/-- Tail of the progress-time regex after its literal prefix. -/
def matchTimeTail (s : List Char) : Option (List Char × List Char × List Char) :=
  match matchDigitsColon s with
  | none => none
  | some (g1, s1) =>
    match matchDigitsColon s1 with
    | none => none
    | some (g2, s2) =>
      match matchSecondsDot s2 with
      | none => none
      | some g3 => some (g1, g2, g3)

/-- Python re.search for the duration pattern: leftmost position whose full
match succeeds wins; on a failed attempt the scan resumes one character
further. -/
def searchDur : List Char → Option (List Char × List Char × List Char)
  | [] => none
  | c :: rest =>
    match (if strPrefix durLit (c :: rest) = true then matchDurTail ((c :: rest).drop durLit.length) else none) with
    | some g => some g
    | none => searchDur rest

/-- Python re.search for the progress-time pattern. -/
def searchTime : List Char → Option (List Char × List Char × List Char)
  | [] => none
  | c :: rest =>
    match (if strPrefix timeLit (c :: rest) = true then matchTimeTail ((c :: rest).drop timeLit.length) else none) with
    | some g => some g
    | none => searchTime rest

/-- Python re.search for the speed pattern. -/
def searchSpeed : List Char → Option (List Char)
  | [] => none
  | c :: rest =>
    match (if strPrefix speedLit (c :: rest) = true then matchSpeedTail ((c :: rest).drop speedLit.length) else none) with
    | some g => some g
    | none => searchSpeed rest

/-- Python output.replace of the dot-mp4 substring by dot-mkv: every
occurrence is rewritten, scanning left to right (the pattern cannot
overlap itself). -/
def replaceMp4 : List Char → List Char
  | '.' :: 'm' :: 'p' :: '4' :: rest => '.' :: 'm' :: 'k' :: 'v' :: replaceMp4 rest
  | c :: rest => c :: replaceMp4 rest
  | [] => []

/-- Round a rational to the nearest integer, ties to even, as Python round
does on exact values. -/
def rhalfEven (x : ℚ) : ℤ :=
  let f := Rat.floor x
  let r := x - (f : ℚ)
  if r < 1 / 2 then f else if 1 / 2 < r then f + 1 else if f % 2 = 0 then f else f + 1

/-- Python round(x, 2) on the exact-rational model of floats. -/
def round2 (x : ℚ) : ℚ := (rhalfEven (x * 100) : ℚ) / 100

/-- Decimal rendering of an integer, as Python str formats it. -/
def intStr (n : ℤ) : List Char := (toString n).data

/-- The eta string of the progress callback: minutes, literal m, space,
seconds, literal s. -/
def etaStr (m s : ℤ) : List Char := intStr m ++ 'm' :: ' ' :: intStr s ++ ['s']

/-- Python exception value, carrying only what the handler inspects:
whether the raised class derives from Exception (ValueError does; a
BaseException-only class such as SystemExit or KeyboardInterrupt does
not, and the except clause of the source does not catch it). -/
structure PyExc where
  fromExceptionClass : Bool
deriving DecidableEq, Repr

/-- Exception raised by a failing float conversion. -/
def valueError : PyExc := ⟨true⟩

/-- Arguments of one progress_callback invocation: rounded percentage,
rounded speed and the formatted eta string. -/
structure Sample where
  percentage : ℚ
  speed : ℚ
  eta : List Char
deriving DecidableEq, Repr

/-- Caller-supplied progress callback; returning some e models the
callback raising exception e. -/
abbrev Observer := Sample → Option PyExc

/-- Duration-extraction step for one diagnostic line (source lines 86-90):
when the line contains the Duration substring and no duration is stored
yet, the duration regex is searched and a successful match has its three
groups converted by float, any conversion failure raising ValueError. -/
def updateDuration (d : Option ℚ) (line : List Char) : Except PyExc (Option ℚ) :=
  if pyIn "Duration".data line && d.isNone then
    match searchDur line with
    | none => Except.ok d
    | some (g1, g2, g3) =>
      match pyFloat g1, pyFloat g2, pyFloat g3 with
      | some h, some m, some s => Except.ok (some (h * 3600 + m * 60 + s))
      | _, _, _ => Except.error valueError
  else Except.ok d

/-- Progress-extraction step for one diagnostic line (source lines 93-115):
guarded by the time= substring, a successful time-regex match and a
truthy stored duration (Python treats 0.0 as falsy), it computes the
elapsed seconds, the unclamped percentage, the speed (defaulting to 1.0
when the speed regex does not match, raising ValueError when its capture
is not a float), the eta guarded by positive speed, and the would-be
callback arguments. -/
def emitSample (d : Option ℚ) (line : List Char) : Except PyExc (Option Sample) :=
  if pyIn timeLit line then
    match searchTime line with
    | none => Except.ok none
    | some (g1, g2, g3) =>
      match d with
      | none => Except.ok none
      | some q =>
        if q = 0 then Except.ok none
        else
          match pyFloat g1, pyFloat g2, pyFloat g3 with
          | some h, some m, some s =>
            let elapsed := h * 3600 + m * 60 + s
            let percentage := elapsed / q * 100
            match (match searchSpeed line with
                   | some g =>
                     match pyFloat g with
                     | some v => Except.ok v
                     | none => Except.error valueError
                   | none => Except.ok (1 : ℚ)) with
            | Except.error e => Except.error e
            | Except.ok speed =>
              let eta := if 0 < speed then (q - elapsed) / speed else 0
              let etaM : ℤ := Rat.floor (eta / 60)
              let etaS : ℤ := Rat.floor (eta - 60 * (Rat.floor (eta / 60) : ℚ))
              Except.ok (some ⟨round2 percentage, round2 speed, etaStr etaM etaS⟩)
          | _, _, _ => Except.error valueError
  else Except.ok none

/-- Result of consuming the diagnostic stream: the argument records of the
callback invocations in order, the final stored duration, and the
exception that aborted the loop, if any. -/
structure MonOut where
  calls : List Sample
  duration : Option ℚ
  exc : Option PyExc
deriving DecidableEq, Repr

/-- Outcome of one iteration of the stderr loop: either the iteration
raised (halting the loop with the callback invocations it made and the
duration as updated so far), or control continues to the next line. -/
inductive StepOut where
  | halt (calls : List Sample) (d : Option ℚ) (e : PyExc)
  | cont (calls : List Sample) (d : Option ℚ)
deriving DecidableEq, Repr

/-- One iteration of the loop body (source lines 85-115) on one line: the
duration update runs first, then the sample extraction, then the callback
invocation when a callback is supplied; an exception anywhere aborts. -/
def stepLine (obs : Option Observer) (d : Option ℚ) (line : List Char) : StepOut :=
  match updateDuration d line with
  | Except.error e => StepOut.halt [] d e
  | Except.ok d2 =>
    match emitSample d2 line with
    | Except.error e => StepOut.halt [] d2 e
    | Except.ok none => StepOut.cont [] d2
    | Except.ok (some s) =>
      match obs with
      | none => StepOut.cont [] d2
      | some f =>
        match f s with
        | some e => StepOut.halt [s] d2 e
        | none => StepOut.cont [s] d2

/-- The for-loop over the process stderr lines (source lines 84-115),
iterating stepLine until the stream ends or an exception halts it. -/
def runMonitor (obs : Option Observer) : Option ℚ → List (List Char) → MonOut
  | d, [] => ⟨[], d, none⟩
  | d, line :: rest =>
    match stepLine obs d line with
    | StepOut.halt cs d2 e => ⟨cs, d2, some e⟩
    | StepOut.cont cs d2 =>
      let r := runMonitor obs d2 rest
      ⟨cs ++ r.calls, r.duration, r.exc⟩

/-- Argument list of the type-1 invocation (soft mux, source lines 35-38). -/
def command1 (inputvideo sub out : List Char) : List (List Char) :=
  ["ffmpeg".data, "-i".data, inputvideo, "-i".data, sub,
   "-map".data, "0".data, "-map".data, "1".data, "-c".data, "copy".data, out]

/-- Argument list of the type-2 invocation (mp4 soft mux, source lines 42-45). -/
def command2 (inputvideo sub out : List Char) : List (List Char) :=
  ["ffmpeg".data, "-i".data, inputvideo, "-i".data, sub,
   "-c:v".data, "copy".data, "-c:a".data, "copy".data, "-c:s".data, "mov_text".data, out]

/-- Argument list of the type-3 invocation (cpu burn-in, source lines 49-54). -/
def command3 (inputvideo sub out : List Char) : List (List Char) :=
  ["ffmpeg".data, "-i".data, inputvideo,
   "-vf".data, "subtitles=".data ++ sub,
   "-c:v".data, "libx264".data, "-preset".data, "ultrafast".data,
   "-c:a".data, "copy".data, out]

/-- Argument list of the type-4 invocation (gpu burn-in, source lines 58-63). -/
def command4 (inputvideo sub out : List Char) : List (List Char) :=
  ["ffmpeg".data, "-hwaccel".data, "cuda".data, "-i".data, inputvideo,
   "-vf".data, "subtitles=".data ++ sub,
   "-c:v".data, "h264_nvenc".data, "-preset".data, "fast".data, "-b:v".data, "2M".data,
   "-c:a".data, "copy".data, out]

/-- Argument list of the type-5 invocation (downscaled burn-in, source
lines 67-72). -/
def command5 (inputvideo sub out : List Char) : List (List Char) :=
  ["ffmpeg".data, "-i".data, inputvideo,
   "-vf".data, "scale=1280:-2,subtitles=".data ++ sub,
   "-c:v".data, "libx264".data, "-preset".data, "ultrafast".data,
   "-c:a".data, "copy".data, out]

/-- Command construction for a requested type (source lines 32-76); type 1
first rewrites every dot-mp4 occurrence of the output path to dot-mkv;
an unrecognized type yields none, which the caller turns into a False
return. -/
def buildPlan (type : ℤ) (inputvideo sub output : List Char) : Option (List (List Char)) :=
  if type = 1 then some (command1 inputvideo sub (replaceMp4 output))
  else if type = 2 then some (command2 inputvideo sub output)
  else if type = 3 then some (command3 inputvideo sub output)
  else if type = 4 then some (command4 inputvideo sub output)
  else if type = 5 then some (command5 inputvideo sub output)
  else none

/-- Observable outcome of one mergeSub call: the argument lists passed to
the process launcher, the callback invocations, and either the returned
boolean or an exception that escaped the function. -/
structure RunTrace where
  launched : List (List (List Char))
  calls : List Sample
  result : Except PyExc Bool
deriving Repr

/-- The except clause of the source (lines 125-127): it catches exactly the
exceptions whose class derives from Exception, converting them into a
False return; anything else escapes. -/
def handleTop (e : PyExc) : Except PyExc Bool :=
  if e.fromExceptionClass then Except.ok false else Except.error e

/-- The function mergeSub of src/msub.py.  The filesystem is the existence
predicate fs, and the external process is the parameter proc: either the
launch raises, or it yields the stderr line stream and the exit code.
The two existence checks short-circuit before anything else; the body
runs under the try whose handler is handleTop. -/
def mergeSub (type : ℤ) (inputvideo sub output : List Char)
    (fs : List Char → Bool) (obs : Option Observer)
    (proc : Except PyExc (List (List Char) × ℤ)) : RunTrace :=
  if fs inputvideo = false then ⟨[], [], Except.ok false⟩
  else if fs sub = false then ⟨[], [], Except.ok false⟩
  else
    match buildPlan type inputvideo sub output with
    | none => ⟨[], [], Except.ok false⟩
    | some cmd =>
      match proc with
      | Except.error e => ⟨[cmd], [], handleTop e⟩
      | Except.ok (lines, rc) =>
        let m := runMonitor obs none lines
        match m.exc with
        | some e => ⟨[cmd], m.calls, handleTop e⟩
        | none => ⟨[cmd], m.calls, Except.ok (decide (rc = 0))⟩

/-! Helper lemmas about the output-path rewrite. -/

lemma strPrefix_iff : ∀ (s t : List Char), strPrefix s t = true ↔ s <+: t := by
  intro s
  induction s with
  | nil => intro t; simp [strPrefix, List.nil_prefix]
  | cons a as ih =>
    intro t
    cases t with
    | nil => simp [strPrefix]
    | cons b bs =>
      rw [strPrefix, List.cons_prefix_cons, Bool.and_eq_true, beq_iff_eq]
      exact and_congr Iff.rfl (ih bs)

lemma prefix_replaceMp4 : ∀ (l s : List Char), '.' ∉ s → s <+: replaceMp4 l → s <+: l := by
  intro l
  induction l using replaceMp4.induct with
  | case1 rest ih =>
    intro s hdot hp
    cases s with
    | nil => exact List.nil_prefix
    | cons a s2 =>
      rw [replaceMp4.eq_1, List.cons_prefix_cons] at hp
      exact absurd (hp.1 ▸ List.mem_cons_self a s2) hdot
  | case2 c rest hne ih =>
    intro s hdot hp
    rw [replaceMp4.eq_2 c rest hne] at hp
    cases s with
    | nil => exact List.nil_prefix
    | cons a s2 =>
      rw [List.cons_prefix_cons] at hp ⊢
      exact ⟨hp.1, ih s2 (fun hm => hdot (List.mem_cons_of_mem _ hm)) hp.2⟩
  | case3 =>
    intro s hdot hp
    rw [show replaceMp4 [] = [] from rfl, List.prefix_nil] at hp
    subst hp
    exact List.nil_prefix

lemma replaceMp4_suffix : ∀ l : List Char,
    ['.', 'm', 'p', '4'] <:+ l → ['.', 'm', 'k', 'v'] <:+ replaceMp4 l := by
  intro l
  induction l using replaceMp4.induct with
  | case1 rest ih =>
    intro h
    obtain ⟨p, hp⟩ := h
    rcases p with _ | ⟨a, _ | ⟨b, _ | ⟨c, _ | ⟨d, p4⟩⟩⟩⟩
    · simp at hp
      subst hp
      rw [replaceMp4.eq_1]
      exact List.suffix_refl _
    · simp at hp
    · simp at hp
    · simp at hp
    · simp at hp
      obtain ⟨ha, hb, hc, hd, hrest⟩ := hp
      obtain ⟨t, ht⟩ := ih ⟨p4, hrest⟩
      rw [replaceMp4.eq_1]
      exact ⟨'.' :: 'm' :: 'k' :: 'v' :: t, by simp [ht]⟩
  | case2 c rest hne ih =>
    intro h
    obtain ⟨p, hp⟩ := h
    cases p with
    | nil =>
      simp at hp
      exact (hne [] hp.1.symm hp.2.symm).elim
    | cons a p2 =>
      simp at hp
      obtain ⟨t, ht⟩ := ih ⟨p2, hp.2⟩
      rw [replaceMp4.eq_2 c rest hne]
      exact ⟨c :: t, by simp [ht]⟩
  | case3 =>
    intro h
    obtain ⟨p, hp⟩ := h
    simp at hp

lemma replaceMp4_id : ∀ l : List Char, pyIn ['.', 'm', 'p', '4'] l = false → replaceMp4 l = l := by
  intro l
  induction l using replaceMp4.induct with
  | case1 rest ih =>
    intro h
    rw [show pyIn ['.', 'm', 'p', '4'] ('.' :: 'm' :: 'p' :: '4' :: rest) = true from rfl] at h
    exact Bool.noConfusion h
  | case2 c rest hne ih =>
    intro h
    rw [pyIn, Bool.or_eq_false_iff] at h
    rw [replaceMp4.eq_2 c rest hne, ih h.2]
  | case3 => intro h; rfl

lemma replaceMp4_nomp4 : ∀ l : List Char, pyIn ['.', 'm', 'p', '4'] (replaceMp4 l) = false := by
  intro l
  induction l using replaceMp4.induct with
  | case1 rest ih => exact ih
  | case2 c rest hne ih =>
    rw [replaceMp4.eq_2 c rest hne, pyIn, ih, Bool.or_false]
    cases hb : strPrefix ['.', 'm', 'p', '4'] (c :: replaceMp4 rest) with
    | false => rfl
    | true =>
      exfalso
      have hpre := (strPrefix_iff _ _).mp hb
      rw [List.cons_prefix_cons] at hpre
      obtain ⟨t, ht⟩ := prefix_replaceMp4 rest ['m', 'p', '4'] (by decide) hpre.2
      exact hne t hpre.1.symm ht.symm
  | case3 => rfl

/-! Helper lemmas about the monitor. -/

/-- A stored duration is never overwritten and its extraction step never
raises: the guard of the duration branch requires the stored duration to
be None. -/
lemma updateDuration_some (q : ℚ) (line : List Char) :
    updateDuration (some q) line = Except.ok (some q) := by
  simp [updateDuration]

/-- With no stored duration the progress branch stops at its truthiness
guard: no sample, no exception. -/
lemma emitSample_noneDur (line : List Char) : emitSample none line = Except.ok none := by
  unfold emitSample
  split
  · split <;> rfl
  · rfl

/-- With a stored duration of zero the progress branch stops at its
truthiness guard (Python treats 0.0 as falsy): no sample, no exception. -/
lemma emitSample_zeroDur (line : List Char) : emitSample (some 0) line = Except.ok none := by
  unfold emitSample
  split
  · split
    · rfl
    · simp
  · rfl

/-- A line whose two extraction steps do nothing continues the loop with
no invocation. -/
lemma stepLine_skip {d d2 : Option ℚ} {line : List Char} (obs : Option Observer)
    (h1 : updateDuration d line = Except.ok d2)
    (h2 : emitSample d2 line = Except.ok none) :
    stepLine obs d line = StepOut.cont [] d2 := by
  simp [stepLine, h1, h2]

/-- A line whose two extraction steps do nothing leaves the whole run
unchanged. -/
lemma runMonitor_cons_skip {d d2 : Option ℚ} {line : List Char} (obs : Option Observer)
    (rest : List (List Char)) (h1 : updateDuration d line = Except.ok d2)
    (h2 : emitSample d2 line = Except.ok none) :
    runMonitor obs d (line :: rest) = runMonitor obs d2 rest := by
  simp [runMonitor, stepLine_skip obs h1 h2]

/-- Whatever one iteration does, it keeps an already stored duration. -/
lemma stepLine_dur (obs : Option Observer) (q : ℚ) (line : List Char) :
    ∃ cs, stepLine obs (some q) line = StepOut.cont cs (some q) ∨
          ∃ e, stepLine obs (some q) line = StepOut.halt cs (some q) e := by
  cases he : emitSample (some q) line with
  | error e => exact ⟨[], Or.inr ⟨e, by simp [stepLine, updateDuration_some, he]⟩⟩
  | ok s =>
    cases s with
    | none => exact ⟨[], Or.inl (by simp [stepLine, updateDuration_some, he])⟩
    | some smp =>
      cases obs with
      | none => exact ⟨[], Or.inl (by simp [stepLine, updateDuration_some, he])⟩
      | some f =>
        cases hf : f smp with
        | none => exact ⟨[smp], Or.inl (by simp [stepLine, updateDuration_some, he, hf])⟩
        | some e => exact ⟨[smp], Or.inr ⟨e, by simp [stepLine, updateDuration_some, he, hf]⟩⟩

/-- An already stored duration survives the whole loop unchanged. -/
lemma runMonitor_duration (q : ℚ) (obs : Option Observer) (lines : List (List Char)) :
    (runMonitor obs (some q) lines).duration = some q := by
  induction lines generalizing obs with
  | nil => rfl
  | cons line rest ih =>
    simp only [runMonitor]
    obtain ⟨cs, h | ⟨e, h⟩⟩ := stepLine_dur obs q line
    · rw [h]; simp [ih]
    · rw [h]

/-- With a stored duration of zero the loop makes no invocation, raises
nothing and ends with the zero duration still stored. -/
lemma runMonitor_zeroDur (obs : Option Observer) (lines : List (List Char)) :
    runMonitor obs (some 0) lines = ⟨[], some 0, none⟩ := by
  induction lines with
  | nil => rfl
  | cons line rest ih =>
    rw [runMonitor_cons_skip obs rest (updateDuration_some 0 line) (emitSample_zeroDur line), ih]

end MSub

namespace MSub

/-! Claim C1. -/

/-- C1 counterexample: planning type 1 (SoftMuxMatroska) with the requested
output path video.avi launches a command whose output path is the
unchanged video.avi, which does not carry a Matroska extension — the
rewrite only substitutes the substring dot-mp4, so the claim that every
requested extension is forced to Matroska is false. -/
theorem C1_counterexample :
    (mergeSub 1 "v.mkv".data "s.srt".data "video.avi".data (fun _ => true) none
        (Except.ok ([], 0))).launched
      = [command1 "v.mkv".data "s.srt".data "video.avi".data] ∧
    replaceMp4 "video.avi".data = "video.avi".data ∧
    List.isSuffixOf ".mkv".data (replaceMp4 "video.avi".data) = false := by
  with_unfolding_all decide

/-- C1 amended: in SoftMuxMatroska mode the planner rewrites every dot-mp4
occurrence of the requested output path to dot-mkv, so a requested path
ending in dot-mp4 yields a path ending in dot-mkv, while a requested
path containing no dot-mp4 occurrence is passed through completely
unchanged, keeping whatever extension was requested. -/
theorem C1_theorem :
    (∀ out : List Char, List.isSuffixOf ".mp4".data out = true →
        List.isSuffixOf ".mkv".data (replaceMp4 out) = true) ∧
    (∀ out : List Char, pyIn ".mp4".data out = false → replaceMp4 out = out) := by
  constructor
  · intro out h
    rw [List.isSuffixOf_iff_suffix] at h ⊢
    exact replaceMp4_suffix out h
  · intro out h
    exact replaceMp4_id out h

/-- C1 witness: both conjuncts of the amended claim at concrete paths. -/
theorem C1_witness :
    List.isSuffixOf ".mkv".data (replaceMp4 "movie.mp4".data) = true ∧
    replaceMp4 "movie.avi".data = "movie.avi".data :=
  ⟨C1_theorem.1 "movie.mp4".data (by decide), C1_theorem.2 "movie.avi".data (by decide)⟩

/-! Claim C2. -/

/-- C2 counterexample: the line Duration: 1:2:3:4 does match the duration
regex (its unescaped dot matches the second colon, capturing 3:4), the
float conversion of that capture raises ValueError, and the job returns
False even though the process exits with code 0; without that line the
identical job returns True — so a malformed marker does surface as a
failed job and the claim is false. -/
theorem C2_counterexample :
    (mergeSub 1 "v".data "s".data "o.mp4".data (fun _ => true) none
        (Except.ok (["Duration: 1:2:3:4".data], 0))).result = Except.ok false ∧
    (mergeSub 1 "v".data "s".data "o.mp4".data (fun _ => true) none
        (Except.ok ([], 0))).result = Except.ok true := by
  with_unfolding_all decide

/-- C2 amended: a diagnostic line on which neither marker regex matches is
silently skipped — the monitor state, the invocation list and the job
outcome are exactly as if the line had not been present.  (A line whose
marker does match a regex but with a capture float rejects can instead
abort the job, as the counterexample shows.) -/
theorem C2_theorem : ∀ (obs : Option Observer) (d : Option ℚ) (line : List Char)
    (rest : List (List Char)), searchDur line = none → searchTime line = none →
    runMonitor obs d (line :: rest) = runMonitor obs d rest := by
  intro obs d line rest h1 h2
  refine runMonitor_cons_skip obs rest ?_ ?_
  · unfold updateDuration
    split
    · rw [h1]
    · rfl
  · unfold emitSample
    split
    · rw [h2]
    · rfl

/-- C2 witness: a typical ffmpeg statistics line matches no marker regex
and leaves the run unchanged. -/
theorem C2_witness :
    runMonitor none none ["frame= 10 fps=0.0 q=28.0 size= 256kB".data]
      = runMonitor none none [] :=
  C2_theorem none none _ [] (by decide) (by decide)

/-! Claim C3. -/

/-- C3 counterexample: with the requested path v.mp4.avi the rewrite
changes the non-trailing dot-mp4 occurrence (and not the trailing
extension .avi), and with a.mp4.mp4 it changes both occurrences — so the
claim that only the trailing extension is substituted and other
occurrences are left unchanged is false. -/
theorem C3_counterexample :
    replaceMp4 "v.mp4.avi".data = "v.mkv.avi".data ∧
    replaceMp4 "a.mp4.mp4".data = "a.mkv.mkv".data := by decide

/-- C3 amended: the container rewrite replaces every occurrence of the
substring dot-mp4 anywhere in the path, not only a trailing extension:
no occurrence of dot-mp4 survives in the planned output path. -/
theorem C3_theorem : ∀ out : List Char, pyIn ".mp4".data (replaceMp4 out) = false :=
  fun out => replaceMp4_nomp4 out

/-! Claim C4. -/

/-- C4: on the diagnostic stream consisting of a duration line carrying
Duration: 00:10:00.00 followed by the progress line
time=00:05:00.00 speed=2.0x, the observer is invoked exactly once, with
percentage 50, speed 2 and eta rendered 2m 30s — whatever the observer
itself does. -/
theorem C4_theorem : ∀ f : Observer,
    (runMonitor (some f) none
        ["Duration: 00:10:00.00".data, "time=00:05:00.00 speed=2.0x".data]).calls
      = [⟨50, 2, "2m 30s".data⟩] := by
  intro f
  have h1 : updateDuration none "Duration: 00:10:00.00".data = Except.ok (some 600) := by
    with_unfolding_all decide
  have h2 : emitSample (some 600) "Duration: 00:10:00.00".data = Except.ok none := by
    with_unfolding_all decide
  have h4 : emitSample (some 600) "time=00:05:00.00 speed=2.0x".data
      = Except.ok (some ⟨50, 2, "2m 30s".data⟩) := by
    with_unfolding_all decide
  rw [runMonitor_cons_skip (some f) _ h1 h2]
  simp only [runMonitor]
  cases hf : f ⟨50, 2, "2m 30s".data⟩ with
  | none =>
    have h5 : stepLine (some f) (some 600) "time=00:05:00.00 speed=2.0x".data
        = StepOut.cont [⟨50, 2, "2m 30s".data⟩] (some 600) := by
      simp [stepLine, updateDuration_some, h4, hf]
    rw [h5]
    simp [runMonitor]
  | some e =>
    have h5 : stepLine (some f) (some 600) "time=00:05:00.00 speed=2.0x".data
        = StepOut.halt [⟨50, 2, "2m 30s".data⟩] (some 600) e := by
      simp [stepLine, updateDuration_some, h4, hf]
    rw [h5]

/-! Claim C5. -/

/-- C5: only the first successfully parsed duration is stored: the duration
branch is guarded by the stored duration being None, so once a duration
is stored every later line leaves it unchanged and the whole loop ends
with it still stored, all percentage and eta computations reading that
stored value. -/
theorem C5_theorem :
    (∀ (q : ℚ) (line : List Char), updateDuration (some q) line = Except.ok (some q)) ∧
    (∀ (q : ℚ) (obs : Option Observer) (lines : List (List Char)),
        (runMonitor obs (some q) lines).duration = some q) :=
  ⟨updateDuration_some, fun q obs lines => runMonitor_duration q obs lines⟩

/-! Claim C6. -/

/-- C6: a line consumed while no duration is known, and which does not
itself establish one, produces no sample and no observer invocation:
the progress branch yields nothing and the whole run is as if the line
were absent. -/
theorem C6_theorem : ∀ (obs : Option Observer) (line : List Char) (rest : List (List Char)),
    updateDuration none line = Except.ok none →
    emitSample none line = Except.ok none ∧
    runMonitor obs none (line :: rest) = runMonitor obs none rest := by
  intro obs line rest h
  exact ⟨emitSample_noneDur line, runMonitor_cons_skip obs rest h (emitSample_noneDur line)⟩

/-- C6 witness: a progress line arriving before any duration line produces
nothing. -/
theorem C6_witness :
    emitSample none "time=00:05:00.00 speed=2.0x".data = Except.ok none ∧
    runMonitor none none ["time=00:05:00.00 speed=2.0x".data] = runMonitor none none [] :=
  C6_theorem none _ [] (by with_unfolding_all decide)

/-! Claim C7. -/

/-- C7: when the speed capture parses to zero, the eta is computed through
the guarded branch as 0 — the division by the speed is not attempted —
and is delivered formatted as 0m 0s; the extraction returns normally
rather than raising. -/
theorem C7_theorem : ∀ (q : ℚ) (line g1 g2 g3 g : List Char) (h m s : ℚ),
    pyIn timeLit line = true →
    searchTime line = some (g1, g2, g3) →
    pyFloat g1 = some h → pyFloat g2 = some m → pyFloat g3 = some s →
    searchSpeed line = some g → pyFloat g = some 0 →
    ∃ r, emitSample (some q) line = Except.ok r ∧
      ∀ smp, r = some smp → smp.speed = 0 ∧ smp.eta = "0m 0s".data := by
  intro q line g1 g2 g3 g h m s hIn hT h1 h2 h3 hS hG
  unfold emitSample
  simp only [hIn, if_true, hT]
  by_cases hq : q = 0
  · refine ⟨none, by simp [hq], fun smp hsmp => Option.noConfusion hsmp⟩
  · simp only [if_neg hq, h1, h2, h3, hS, hG, lt_self_iff_false, if_false]
    refine ⟨_, rfl, fun smp hsmp => ?_⟩
    injection hsmp with hsmp
    subst hsmp
    refine ⟨?_, ?_⟩
    · show round2 0 = 0
      with_unfolding_all decide
    · show etaStr (Rat.floor ((0 : ℚ) / 60))
          (Rat.floor ((0 : ℚ) - 60 * (Rat.floor ((0 : ℚ) / 60) : ℚ))) = "0m 0s".data
      with_unfolding_all decide

/-- C7 witness: the line time=00:05:00.00 speed=0.0x with a stored duration
of 600 seconds yields a sample with speed 0 and eta 0m 0s. -/
theorem C7_witness :
    ∃ r, emitSample (some 600) "time=00:05:00.00 speed=0.0x".data = Except.ok r ∧
      ∀ smp, r = some smp → smp.speed = 0 ∧ smp.eta = "0m 0s".data :=
  C7_theorem 600 "time=00:05:00.00 speed=0.0x".data "00".data "05".data "00.00".data
    "0.0".data 0 5 0 (by decide) (by decide) (by with_unfolding_all decide)
    (by with_unfolding_all decide) (by with_unfolding_all decide) (by decide)
    (by with_unfolding_all decide)

/-! Claim C8. -/

/-- C8: when the input video path does not exist, mergeSub short-circuits:
it returns a failed result, launches no process and never invokes the
observer, whatever the mode, the other paths, the observer and the
process behaviour would have been. -/
theorem C8_theorem : ∀ (type : ℤ) (iv sub out : List Char) (fs : List Char → Bool)
    (obs : Option Observer) (proc : Except PyExc (List (List Char) × ℤ)),
    fs iv = false →
    mergeSub type iv sub out fs obs proc = ⟨[], [], Except.ok false⟩ := by
  intro type iv sub out fs obs proc h
  simp [mergeSub, h]

/-- C8 witness: the short-circuit at a concrete missing input. -/
theorem C8_witness :
    mergeSub 1 "missing.mp4".data "subs.srt".data "out.mp4".data (fun _ => false) none
        (Except.ok ([], 0)) = ⟨[], [], Except.ok false⟩ :=
  C8_theorem 1 _ _ _ _ none _ rfl

/-! Claim C9. -/

/-- C9: a first duration marker reading 00:00:00.00 is stored as the
duration 0.0, which the progress guard (Python truthiness) then treats
exactly like an unknown duration: no sample is ever produced for the
rest of the job, no observer call happens, nothing raises, and the
percentage division is never reached with the zero divisor. -/
theorem C9_theorem :
    updateDuration none "Duration: 00:00:00.00".data = Except.ok (some 0) ∧
    ∀ (obs : Option Observer) (lines : List (List Char)),
      runMonitor obs (some 0) lines = ⟨[], some 0, none⟩ :=
  ⟨by with_unfolding_all decide, fun obs lines => runMonitor_zeroDur obs lines⟩

/-! Claim C10. -/

/-- C10 counterexample: an observer raising an exception whose class does
not derive from Exception (SystemExit, KeyboardInterrupt) is not caught
by the except Exception clause and escapes mergeSub — so the claim that
any exception raised in the job body is converted into a False return is
false. -/
theorem C10_counterexample :
    (mergeSub 1 "v".data "s".data "o.mp4".data (fun _ => true)
        (some (fun _ => some ⟨false⟩))
        (Except.ok (["Duration: 00:10:00.00".data,
                     "time=00:05:00.00 speed=2.0x".data], 0))).result
      = Except.error ⟨false⟩ := by
  with_unfolding_all decide

/-- C10 amended: every exception whose class derives from Exception is
caught by the handler and converted into a False return; consequently
anything that does escape mergeSub is a BaseException-only exception
such as SystemExit or KeyboardInterrupt. -/
theorem C10_theorem : ∀ (type : ℤ) (iv sub out : List Char) (fs : List Char → Bool)
    (obs : Option Observer) (proc : Except PyExc (List (List Char) × ℤ)) (e : PyExc),
    (mergeSub type iv sub out fs obs proc).result = Except.error e →
    e.fromExceptionClass = false := by
  intro type iv sub out fs obs proc e h
  unfold mergeSub at h
  split at h
  · simp at h
  · split at h
    · simp at h
    · split at h
      · simp at h
      · split at h
        · unfold handleTop at h
          split at h
          · simp at h
          · rename_i hcond
            simp at h
            subst h
            simpa using hcond
        · dsimp only at h
          split at h
          · unfold handleTop at h
            split at h
            · simp at h
            · rename_i hcond
              simp at h
              subst h
              simpa using hcond
          · simp at h

/-- C10 witness: the amended claim applied at the concrete escaping run of
the counterexample input. -/
theorem C10_witness : PyExc.fromExceptionClass ⟨false⟩ = false :=
  C10_theorem 1 "v".data "s".data "o.mp4".data (fun _ => true)
    (some (fun _ => some ⟨false⟩))
    (Except.ok (["Duration: 00:10:00.00".data, "time=00:05:00.00 speed=2.0x".data], 0))
    ⟨false⟩ (by with_unfolding_all decide)

end MSub
